import Mathlib

/-!
Shallow embedding of `awsfabrictasks/utils.py`.

Path-normalization helpers (`force_slashend`, `force_noslashend`,
`rsyncformat_path`, `parse_bool`) are embedded as Lean functions on `String`
(a `String` is a list of characters, matching Python's `str` for these
operations).  The remote-execution helpers (`sudo_chown`, `sudo_chmod`,
`sudo_chattr`, `sudo_upload_file`, `sudo_mkdir_p`, `sudo_upload_dir`,
`sudo_upload_string_to_file`) are embedded as trace-producing functions: each
returns the list of remote commands it issues, and the fallible variants are
parameterized by a fault oracle that says which remote command fails.
-/

namespace AwsFab

/-- Python `path.endswith('/')`: the last character of the string is `'/'`. -/
def endsWithSlash (s : String) : Bool :=
  decide (s.data.reverse.head? = some '/')

/-- Python `path.rstrip('/')`: remove every trailing `'/'` character. -/
def rstripSlash (s : String) : String :=
  String.mk ((s.data.reverse.dropWhile (fun c => c = '/')).reverse)

/-- Embedding of `force_slashend(path)` from `utils.py`:
`if not path.endswith('/'): path = path + '/'` then `return path`. -/
def force_slashend (path : String) : String :=
  if endsWithSlash path then path else path ++ "/"

/-- Embedding of `force_noslashend(path)` from `utils.py`:
`if path.endswith('/'): path = path.rstrip('/')` then `return path`. -/
def force_noslashend (path : String) : String :=
  if endsWithSlash path then rstripSlash path else path

/-- Embedding of `rsyncformat_path(source_path, sync_content)` from `utils.py`. -/
def rsyncformat_path (source_path : String) (sync_content : Bool) : String :=
  if sync_content then force_slashend source_path else force_noslashend source_path

/-- The spec's phrase "ends with exactly one `/`": the last character is `/`
and the character before it (when present) is not `/`. -/
def endsWithExactlyOneSlash (s : String) : Bool :=
  match s.data.reverse with
  | [] => false
  | c :: rest => decide (c = '/') && !(decide (rest.head? = some '/'))

/-- Python values relevant to `parse_bool`: strings, booleans and `None`. -/
inductive PyVal : Type
  | pstr (s : String)
  | pbool (b : Bool)
  | pnone
deriving DecidableEq

/-- Python `==` restricted to `PyVal`: strings compare by content, booleans by
value, `None` equals only `None`; values of different kinds are unequal. -/
def pyEq : PyVal → PyVal → Bool
  | PyVal.pstr a, PyVal.pstr b => decide (a = b)
  | PyVal.pbool a, PyVal.pbool b => decide (a = b)
  | PyVal.pnone, PyVal.pnone => true
  | _, _ => false

/-- Embedding of `parse_bool(data)` from `utils.py`: `data in ('true', 'True', True)`,
where Python `in` tests `==` against each tuple element. -/
def parse_bool (data : PyVal) : Bool :=
  pyEq data (PyVal.pstr "true") || pyEq data (PyVal.pstr "True")
    || pyEq data (PyVal.pbool true)

/- Helper lemmas about the character-list operations. -/

theorem head?_dropWhile_slash (l : List Char) :
    ¬ ((l.dropWhile (fun c => c = '/')).head? = some '/') := by
  induction l with
  | nil => simp [List.dropWhile]
  | cons c rest ih =>
    by_cases h : c = '/'
    · simpa [List.dropWhile, h] using ih
    · simp [List.dropWhile, h]

theorem endsWithSlash_iff (s : String) :
    endsWithSlash s = true ↔ s.data.reverse.head? = some '/' := by
  simp [endsWithSlash]

theorem data_rstripSlash (s : String) :
    (rstripSlash s).data = (s.data.reverse.dropWhile (fun c => c = '/')).reverse := by
  rfl

theorem endsWithSlash_rstripSlash (s : String) :
    endsWithSlash (rstripSlash s) = false := by
  have h := head?_dropWhile_slash s.data.reverse
  simp [endsWithSlash, data_rstripSlash]
  intro hcontra
  exact h (by simpa using hcontra)

theorem endsWithSlash_force_noslashend (p : String) :
    endsWithSlash (force_noslashend p) = false := by
  unfold force_noslashend
  by_cases h : endsWithSlash p = true
  · simp [h, endsWithSlash_rstripSlash]
  · simp [h]

theorem string_data_ext {a b : String} (h : a.data = b.data) : a = b := by
  cases a; cases b; exact congrArg String.mk h

theorem endsWithSlash_append_slash (p : String) :
    endsWithSlash (p ++ "/") = true := by
  have hd : (p ++ "/").data = p.data ++ ['/'] := by
    simp [String.data_append]
  simp [endsWithSlash, hd]

theorem force_slashend_of_ends (p : String) (h : endsWithSlash p = true) :
    force_slashend p = p := by
  simp [force_slashend, h]

theorem force_slashend_of_not_ends (p : String) (h : endsWithSlash p = false) :
    force_slashend p = p ++ "/" := by
  simp [force_slashend, h]

theorem endsWithSlash_force_slashend (p : String) :
    endsWithSlash (force_slashend p) = true := by
  unfold force_slashend
  by_cases h : endsWithSlash p = true
  · simp [h]
  · simp [h, endsWithSlash_append_slash]

theorem force_slashend_idem (p : String) :
    force_slashend (force_slashend p) = force_slashend p :=
  force_slashend_of_ends _ (endsWithSlash_force_slashend p)

theorem force_noslashend_of_not_ends (p : String) (h : endsWithSlash p = false) :
    force_noslashend p = p := by
  simp [force_noslashend, h]

theorem force_noslashend_idem (p : String) :
    force_noslashend (force_noslashend p) = force_noslashend p :=
  force_noslashend_of_not_ends _ (endsWithSlash_force_noslashend p)

theorem data_ne_nil_of_ne_empty (s : String) (h : s ≠ "") : s.data ≠ [] := by
  intro hd
  exact h (string_data_ext (by rw [hd]))

/-- Claim C1: `rsyncformat_path` returns `force_slashend` of the path when
`sync_content` is true and `force_noslashend` of it when false; on
`"/etc/init.d"` this gives `"/etc/init.d/"`, `"/etc/init.d"`, and on
`"/etc/init.d/"` with `sync_content = false` gives `"/etc/init.d"`. -/
theorem C1_rsyncformat_path (p : String) :
    rsyncformat_path p true = force_slashend p
      ∧ rsyncformat_path p false = force_noslashend p
      ∧ rsyncformat_path "/etc/init.d" true = "/etc/init.d/"
      ∧ rsyncformat_path "/etc/init.d" false = "/etc/init.d"
      ∧ rsyncformat_path "/etc/init.d/" false = "/etc/init.d" :=
  ⟨rfl, rfl, by decide, by decide, by decide⟩

/-- Claim C2: `parse_bool` returns true exactly on the string `"true"`, the string
`"True"`, and the boolean `true`; in particular it returns false on the
strings `"1"`, `"yes"`, `"TRUE"`, `"false"`, and on `None`. -/
theorem C2_parse_bool (v : PyVal) :
    (parse_bool v = true
      ↔ (v = PyVal.pstr "true" ∨ v = PyVal.pstr "True" ∨ v = PyVal.pbool true))
      ∧ parse_bool (PyVal.pstr "1") = false
      ∧ parse_bool (PyVal.pstr "yes") = false
      ∧ parse_bool (PyVal.pstr "TRUE") = false
      ∧ parse_bool (PyVal.pstr "false") = false
      ∧ parse_bool PyVal.pnone = false := by
  refine ⟨?_, by decide, by decide, by decide, by decide, by decide⟩
  cases v <;> simp [parse_bool, pyEq]

/-- Claim C3 counterexample: on the input `"a//"`, which already ends with two
slashes, `force_slashend` returns it unchanged, so the result does not end
with exactly one `/` as the claim states. -/
theorem C3_counterexample :
    ¬ (endsWithExactlyOneSlash (force_slashend "a//") = true) := by decide

/-- Claim C3 (amended): `force_slashend` is idempotent and its result always ends
with `/`; when the input does not already end with `/`, exactly one `/` is
appended (an input already ending with one or more slashes is returned
unchanged, so the result need not end with exactly one `/`). -/
theorem C3_force_slashend_amended (p : String) :
    force_slashend (force_slashend p) = force_slashend p
      ∧ endsWithSlash (force_slashend p) = true
      ∧ (endsWithSlash p = false → force_slashend p = p ++ "/")
      ∧ (endsWithSlash p = true → force_slashend p = p) :=
  ⟨force_slashend_idem p, endsWithSlash_force_slashend p,
    force_slashend_of_not_ends p, force_slashend_of_ends p⟩

/-- Claim C3 witness: the amended claim instantiated at `"a"` (no trailing slash)
with all hypotheses discharged concretely. -/
theorem C3_force_slashend_amended_witness :
    force_slashend (force_slashend "a") = force_slashend "a"
      ∧ force_slashend "a" = "a" ++ "/" :=
  ⟨(C3_force_slashend_amended "a").1,
    (C3_force_slashend_amended "a").2.2.1 (by decide)⟩

/-- Claim C4: `force_noslashend` strips all trailing slashes: its result never ends
with `/`, and it is idempotent. -/
theorem C4_force_noslashend (p : String) :
    endsWithSlash (force_noslashend p) = false
      ∧ force_noslashend (force_noslashend p) = force_noslashend p :=
  ⟨endsWithSlash_force_noslashend p, force_noslashend_idem p⟩

/-- Claim C10: on a non-empty path made only of `/` characters, `force_noslashend`
returns the empty string. -/
theorem C10_force_noslashend_all_slashes (s : String) (hne : s ≠ "")
    (hall : ∀ c ∈ s.data, c = '/') : force_noslashend s = "" := by
  have hnil : s.data ≠ [] := data_ne_nil_of_ne_empty s hne
  have hends : endsWithSlash s = true := by
    rw [endsWithSlash_iff]
    rcases hrev : s.data.reverse with _ | ⟨c, rest⟩
    · exact absurd (by simpa using hrev) hnil
    · have hc : c ∈ s.data := by
        have : c ∈ s.data.reverse := by rw [hrev]; exact List.mem_cons_self c rest
        simpa using this
      rw [hall c hc]
      rfl
  have hdrop : s.data.reverse.dropWhile (fun c => c = '/') = [] := by
    rw [List.dropWhile_eq_nil_iff]
    intro x hx
    simpa using hall x (by simpa using hx)
  apply string_data_ext
  rw [force_noslashend, hends]
  simp [data_rstripSlash, hdrop]

/-- Claim C10 witness: the root path `"/"` collapses to the empty string. -/
theorem C10_witness : force_noslashend "/" = "" :=
  C10_force_noslashend_all_slashes "/" (by decide) (by decide)

/-!
Remote-command trace embedding.  Each helper returns the list of remote
operations it issues, in order.  `π` is the type used for remote/local paths:
`String` for the single-file helpers, `List String` (a path as a list of
components, joined by `os.path.join`) for the directory-tree helper.
-/

/-- A remote operation issued through the fabric collaborator: a privileged
`chown`, `chmod` or `mkdir -p` shell command, or a privileged file copy
(`put` with `use_sudo=True`). -/
inductive Cmd (π : Type) : Type
  | chown (owner : String) (path : π)
  | chmod (mode : String) (path : π)
  | mkdirp (path : π)
  | put (local_path remote_path : π)
deriving DecidableEq

/-- Python truthiness of an optional-string keyword argument: `None` and the
empty string are falsy, any other string is truthy. -/
def truthy : Option String → Bool
  | Option.none => false
  | Option.some s => decide (s ≠ "")

/-- Embedding of `sudo_chown(remote_path, owner)`: issues `sudo chown <owner> <path>`. -/
def sudo_chown {π : Type} (remote_path : π) (owner : String) : List (Cmd π) :=
  [Cmd.chown owner remote_path]

/-- Embedding of `sudo_chmod(remote_path, mode)`: issues `sudo chmod <mode> <path>`. -/
def sudo_chmod {π : Type} (remote_path : π) (mode : String) : List (Cmd π) :=
  [Cmd.chmod mode remote_path]

/-- Embedding of `sudo_chattr(remote_path, owner=None, mode=None)`: `if owner:` run
`sudo_chown`, then `if mode:` run `sudo_chmod`. -/
def sudo_chattr {π : Type} (remote_path : π) (owner mode : Option String) :
    List (Cmd π) :=
  (if truthy owner then sudo_chown remote_path (owner.getD "") else [])
    ++ (if truthy mode then sudo_chmod remote_path (mode.getD "") else [])

/-- Embedding of `sudo_upload_file(local_path, remote_path, **chattr_kw)`: `put` with sudo,
then `sudo_chattr` on the remote path. -/
def sudo_upload_file {π : Type} (local_path remote_path : π)
    (owner mode : Option String) : List (Cmd π) :=
  Cmd.put local_path remote_path :: sudo_chattr remote_path owner mode

/-- Embedding of `sudo_mkdir_p(remote_path, **chattr_kw)`: `sudo mkdir -p`, then
`sudo_chattr` on the path. -/
def sudo_mkdir_p {π : Type} (remote_path : π) (owner mode : Option String) :
    List (Cmd π) :=
  Cmd.mkdirp remote_path :: sudo_chattr remote_path owner mode

/-!
`sudo_upload_dir`.  Paths on both sides are lists of path components;
`os.path.join(a, b)` is list append.  `os.walk(local_dir)` is an external
collaborator, so its result is a parameter: a list of
`(dirpath, dirnames, filenames)` triples in traversal order, where every
`dirpath` extends `local_dir` (which `os.walk` guarantees).
`os.path.relpath(p, start)` for such paths is the list of components of `p`
after the `start` prefix; the relative path `'.'` (the traversal root itself)
is represented by the empty list. -/

/-- One `(dirpath, dirnames, filenames)` triple yielded by `os.walk`. -/
structure WalkEntry : Type where
  dirpath : List String
  dirnames : List String
  filenames : List String
deriving DecidableEq

/-- Embedding of `os.path.relpath(p, start)` for the `os.walk` case where `start` is a
prefix of `p`: the components of `p` after the prefix (`[]` stands for `'.'`). -/
def relpath (p start : List String) : List String :=
  p.drop start.length

/-- The remote directory computed for a visited local directory:
`remote_dirpath = remote_dir; rel = relpath(dirpath, local_dir);
if rel != '.': remote_dirpath = join(remote_dir, rel)`. -/
def remoteDirFor (local_dir remote_dir dirpath : List String) : List String :=
  if relpath dirpath local_dir ≠ [] then remote_dir ++ relpath dirpath local_dir
  else remote_dir

/-- The loop body `for filename in filenames:` of `sudo_upload_dir`: upload
`join(local_dirpath, filename)` to `join(remote_dirpath, filename)`. -/
def fileOps (local_dirpath remote_dirpath : List String)
    (owner mode : Option String) : List String → List (Cmd (List String))
  | [] => []
  | fn :: rest =>
    sudo_upload_file (local_dirpath ++ [fn]) (remote_dirpath ++ [fn]) owner mode
      ++ fileOps local_dirpath remote_dirpath owner mode rest

/-- The body of the `for local_dirpath, dirnames, filenames in walk(...)` loop
for one walk entry: `sudo_mkdir_p` on the computed remote directory, then the
file uploads. -/
def entryOps (local_dir remote_dir : List String) (owner mode : Option String)
    (e : WalkEntry) : List (Cmd (List String)) :=
  sudo_mkdir_p (remoteDirFor local_dir remote_dir e.dirpath) owner mode
    ++ fileOps e.dirpath (remoteDirFor local_dir remote_dir e.dirpath) owner mode
        e.filenames

/-- Embedding of `sudo_upload_dir(local_dir, remote_dir, **chattr_kw)`, with the `os.walk`
result passed in as `walkRes`. -/
def sudo_upload_dir (walkRes : List WalkEntry) (local_dir remote_dir : List String)
    (owner mode : Option String) : List (Cmd (List String)) :=
  match walkRes with
  | [] => []
  | e :: rest =>
    entryOps local_dir remote_dir owner mode e
      ++ sudo_upload_dir rest local_dir remote_dir owner mode

/-!
`sudo_upload_string_to_file`.  Remote operations may fail (a failed `put` is
fabric's transfer error, a failed `sudo` command its command error); which one
fails is decided by a fault oracle.  The raised error is identified by the
failing command.  The local temporary file is the only local state: the model
tracks whether it still exists on disk. -/

/-- Run remote commands in order; the first one the fault oracle fails on
raises an error identified by that command, skipping the rest. -/
def runCmds (fault : Cmd String → Bool) : List (Cmd String) → Except (Cmd String) Unit
  | [] => Except.ok ()
  | c :: rest => if fault c then Except.error c else runCmds fault rest

/-- Python `try: body finally: fin`: run the body, then run the finalizer on
the resulting state whether the body returned or raised, and propagate the
body's outcome unchanged (the finalizer neither returns nor raises). -/
def pytry_finally {σ ε α : Type} (body : σ → Except ε α × σ) (fin : σ → σ)
    (s : σ) : Except ε α × σ :=
  let r := body s
  (r.1, fin r.2)

/-- Embedding of `sudo_upload_string_to_file(string_to_upload, remote_path, **chattr_kw)`:
`NamedTemporaryFile(delete=False)` creates the temp file (state becomes
`true` = exists), the string is written and the file closed, then inside
`try:` the temp file is uploaded with `sudo_upload_file`, and the `finally:`
block removes the temp file (state becomes `false`).  Returns the upload's
outcome together with whether the temp file still exists. -/
def sudo_upload_string_to_file (fault : Cmd String → Bool)
    (string_to_upload remote_path : String) (owner mode : Option String) :
    Except (Cmd String) Unit × Bool :=
  let tmpname := "tmpfile"
  let tmpExists := true
  pytry_finally
    (fun s => (runCmds fault (sudo_upload_file tmpname remote_path owner mode), s))
    (fun _ => false)
    tmpExists

theorem truthy_none_eq : truthy Option.none = false := rfl

theorem truthy_empty_eq : truthy (Option.some "") = false := by decide

/-- Claim C5: `sudo_chattr` issues a `chown` command only if the owner is
supplied (truthy) and a `chmod` command only if the mode is supplied, with
all `chown` commands strictly before all `chmod` commands; with both absent
it issues zero commands, and with owner `"u:g"` and no mode it issues exactly
one `chown` and no `chmod`. -/
theorem C5_sudo_chattr (p : String) (o m : Option String) :
    sudo_chattr p Option.none Option.none = ([] : List (Cmd String))
      ∧ sudo_chattr p (Option.some "u:g") Option.none = [Cmd.chown "u:g" p]
      ∧ (∀ ow q, Cmd.chown ow q ∈ sudo_chattr p o m → truthy o = true)
      ∧ (∀ md q, Cmd.chmod md q ∈ sudo_chattr p o m → truthy m = true)
      ∧ (∃ l1 l2, sudo_chattr p o m = l1 ++ l2
          ∧ (∀ c ∈ l1, ∃ ow, c = Cmd.chown ow p)
          ∧ (∀ c ∈ l2, ∃ md, c = Cmd.chmod md p)) := by
  refine ⟨by simp [sudo_chattr, truthy],
    by simp [sudo_chattr, truthy, sudo_chown], ?_, ?_, ?_⟩
  · intro ow q h
    by_cases ho : truthy o
    · exact ho
    · exfalso
      by_cases hm : truthy m <;> simp [sudo_chattr, ho, hm, sudo_chmod] at h
  · intro md q h
    by_cases hm : truthy m
    · exact hm
    · exfalso
      by_cases ho : truthy o <;> simp [sudo_chattr, ho, hm, sudo_chown] at h
  · refine ⟨if truthy o then sudo_chown p (o.getD "") else [],
      if truthy m then sudo_chmod p (m.getD "") else [], rfl, ?_, ?_⟩
    · intro c hc
      by_cases ho : truthy o
      · simp [ho, sudo_chown] at hc
        exact ⟨o.getD "", hc⟩
      · simp [ho] at hc
    · intro c hc
      by_cases hm : truthy m
      · simp [hm, sudo_chmod] at hc
        exact ⟨m.getD "", hc⟩
      · simp [hm] at hc

/-- Claim C5 witness: at path `"/x"` with owner `"u:g"` and no mode, the trace
is exactly one `chown`, and the membership hypothesis of the only-if direction
is discharged concretely. -/
theorem C5_witness :
    sudo_chattr "/x" (Option.some "u:g") Option.none = [Cmd.chown "u:g" "/x"]
      ∧ truthy (Option.some "u:g") = true :=
  ⟨(C5_sudo_chattr "/x" (Option.some "u:g") Option.none).2.1,
    (C5_sudo_chattr "/x" (Option.some "u:g") Option.none).2.2.1 "u:g" "/x"
      (by decide)⟩

/-- Claim C9: `sudo_chattr` treats an empty-string owner or mode the same as
an absent one (Python truthiness makes `""` falsy), so an empty owner issues
no `chown`, an empty mode issues no `chmod`, and with both empty the trace is
empty. -/
theorem C9_sudo_chattr_empty (p : String) (o m : Option String) :
    sudo_chattr p (Option.some "") m = sudo_chattr p Option.none m
      ∧ sudo_chattr p o (Option.some "") = sudo_chattr p o Option.none
      ∧ sudo_chattr p (Option.some "") (Option.some "")
          = ([] : List (Cmd String)) := by
  refine ⟨?_, ?_, ?_⟩ <;>
    simp [sudo_chattr, truthy_empty_eq, truthy_none_eq]

/-- Claim C6: the temporary file of `sudo_upload_string_to_file` is removed on
every exit path — for every fault oracle, hence both when the upload succeeds
and when any of its remote commands fails — and the outcome of the inner
upload, in particular any error it raises, is propagated to the caller
unchanged. -/
theorem C6_sudo_upload_string_to_file (fault : Cmd String → Bool)
    (string_to_upload remote_path : String) (owner mode : Option String) :
    (sudo_upload_string_to_file fault string_to_upload remote_path owner mode).2
        = false
      ∧ (sudo_upload_string_to_file fault string_to_upload remote_path owner mode).1
          = runCmds fault (sudo_upload_file "tmpfile" remote_path owner mode)
      ∧ (∀ e, runCmds fault (sudo_upload_file "tmpfile" remote_path owner mode)
            = Except.error e
          → (sudo_upload_string_to_file fault string_to_upload remote_path
              owner mode).1 = Except.error e) :=
  ⟨rfl, rfl, fun _ he => he⟩

/-- Claim C6 witness: with a fault oracle that fails the `put`, the temp file
is still removed and the transfer error is propagated unchanged. -/
theorem C6_witness :
    (sudo_upload_string_to_file
        (fun c => match c with | Cmd.put _ _ => true | _ => false)
        "hello" "/etc/conf" Option.none Option.none).2 = false
      ∧ (sudo_upload_string_to_file
          (fun c => match c with | Cmd.put _ _ => true | _ => false)
          "hello" "/etc/conf" Option.none Option.none).1
          = Except.error (Cmd.put "tmpfile" "/etc/conf") :=
  ⟨(C6_sudo_upload_string_to_file
      (fun c => match c with | Cmd.put _ _ => true | _ => false)
      "hello" "/etc/conf" Option.none Option.none).1,
    (C6_sudo_upload_string_to_file
        (fun c => match c with | Cmd.put _ _ => true | _ => false)
        "hello" "/etc/conf" Option.none Option.none).2.2
      (Cmd.put "tmpfile" "/etc/conf") rfl⟩

theorem mem_fileOps (ld rd : List String) (o m : Option String)
    (fns : List String) (fn : String) (h : fn ∈ fns) :
    Cmd.put (ld ++ [fn]) (rd ++ [fn]) ∈ fileOps ld rd o m fns := by
  induction fns with
  | nil => cases h
  | cons a rest ih =>
    rcases List.mem_cons.mp h with h1 | h2
    · subst h1
      simp [fileOps, sudo_upload_file]
    · simp only [fileOps]
      exact List.mem_append_right _ (ih h2)

theorem mem_entryOps_mkdirp (ld rd : List String) (o m : Option String)
    (e : WalkEntry) :
    Cmd.mkdirp (remoteDirFor ld rd e.dirpath) ∈ entryOps ld rd o m e := by
  simp [entryOps, sudo_mkdir_p]

theorem mem_entryOps_put (ld rd : List String) (o m : Option String)
    (e : WalkEntry) (fn : String) (h : fn ∈ e.filenames) :
    Cmd.put (e.dirpath ++ [fn]) (remoteDirFor ld rd e.dirpath ++ [fn])
      ∈ entryOps ld rd o m e := by
  simp only [entryOps]
  exact List.mem_append_right _ (mem_fileOps _ _ o m _ fn h)

theorem mem_sudo_upload_dir (walkRes : List WalkEntry) (ld rd : List String)
    (o m : Option String) (e : WalkEntry) (he : e ∈ walkRes)
    (c : Cmd (List String)) (hc : c ∈ entryOps ld rd o m e) :
    c ∈ sudo_upload_dir walkRes ld rd o m := by
  induction walkRes with
  | nil => cases he
  | cons a rest ih =>
    rcases List.mem_cons.mp he with h1 | h2
    · subst h1
      simp only [sudo_upload_dir]
      exact List.mem_append_left _ hc
    · simp only [sudo_upload_dir]
      exact List.mem_append_right _ (ih h2)

/-- Claim C7: for every directory visited by `sudo_upload_dir` (every walk
entry, whose `dirpath` extends `local_dir` by some component list `rest`, as
`os.walk` guarantees), the computed remote directory is `remote_dir`
unchanged when the relative path is the traversal root (`rest = []`) and
`remote_dir` joined with the relative path otherwise; the trace contains the
`mkdir -p` for that remote directory, and, for each file directly inside the
visited directory, an upload from the local directory joined with the
filename to the remote directory joined with the same filename. -/
theorem C7_sudo_upload_dir (walkRes : List WalkEntry)
    (local_dir remote_dir : List String) (owner mode : Option String)
    (e : WalkEntry) (rest : List String) (he : e ∈ walkRes)
    (hdp : e.dirpath = local_dir ++ rest) :
    remoteDirFor local_dir remote_dir e.dirpath
        = (if rest = [] then remote_dir else remote_dir ++ rest)
      ∧ Cmd.mkdirp (remoteDirFor local_dir remote_dir e.dirpath)
          ∈ sudo_upload_dir walkRes local_dir remote_dir owner mode
      ∧ (∀ fn ∈ e.filenames,
          Cmd.put (e.dirpath ++ [fn])
              (remoteDirFor local_dir remote_dir e.dirpath ++ [fn])
            ∈ sudo_upload_dir walkRes local_dir remote_dir owner mode) := by
  have hrel : relpath e.dirpath local_dir = rest := by
    rw [hdp, relpath, List.drop_left]
  refine ⟨?_, ?_, ?_⟩
  · rw [remoteDirFor, hrel]
    by_cases h : rest = [] <;> simp [h]
  · exact mem_sudo_upload_dir walkRes local_dir remote_dir owner mode e he _
      (mem_entryOps_mkdirp local_dir remote_dir owner mode e)
  · intro fn hfn
    exact mem_sudo_upload_dir walkRes local_dir remote_dir owner mode e he _
      (mem_entryOps_put local_dir remote_dir owner mode e fn hfn)

/-- Claim C7 witness: for the tree `root/{a.txt, sub/b.txt}` uploaded to
`rem`, the visited subdirectory `root/sub` targets `rem/sub`, whose creation
and whose file upload `rem/sub/b.txt` both appear in the trace. -/
theorem C7_witness :
    remoteDirFor ["root"] ["rem"] ["root", "sub"]
        = (if (["sub"] : List String) = [] then ["rem"] else ["rem"] ++ ["sub"])
      ∧ Cmd.mkdirp (remoteDirFor ["root"] ["rem"] ["root", "sub"])
          ∈ sudo_upload_dir
              [⟨["root"], ["sub"], ["a.txt"]⟩, ⟨["root", "sub"], [], ["b.txt"]⟩]
              ["root"] ["rem"] Option.none Option.none
      ∧ Cmd.put (["root", "sub"] ++ ["b.txt"])
            (remoteDirFor ["root"] ["rem"] ["root", "sub"] ++ ["b.txt"])
          ∈ sudo_upload_dir
              [⟨["root"], ["sub"], ["a.txt"]⟩, ⟨["root", "sub"], [], ["b.txt"]⟩]
              ["root"] ["rem"] Option.none Option.none :=
  let h := C7_sudo_upload_dir
    [⟨["root"], ["sub"], ["a.txt"]⟩, ⟨["root", "sub"], [], ["b.txt"]⟩]
    ["root"] ["rem"] Option.none Option.none
    ⟨["root", "sub"], [], ["b.txt"]⟩ ["sub"] (by decide) (by decide)
  ⟨h.1, h.2.1, h.2.2 "b.txt" (by decide)⟩

/-- An element `x` occurs strictly before an element `y` in the list `l`. -/
def precedes {α : Type} (x y : α) (l : List α) : Prop :=
  ∃ l1 l2 l3, l = l1 ++ x :: l2 ++ y :: l3

theorem sudo_upload_dir_append (w1 w2 : List WalkEntry) (ld rd : List String)
    (o m : Option String) :
    sudo_upload_dir (w1 ++ w2) ld rd o m
      = sudo_upload_dir w1 ld rd o m ++ sudo_upload_dir w2 ld rd o m := by
  induction w1 with
  | nil => rfl
  | cons a rest ih =>
    simp only [List.cons_append, sudo_upload_dir, List.append_eq, ih,
      List.append_assoc]

theorem fileOps_split (ld rd : List String) (o m : Option String)
    (fns : List String) (fn : String) (h : fn ∈ fns) :
    ∃ a b, fileOps ld rd o m fns = a ++ Cmd.put (ld ++ [fn]) (rd ++ [fn]) :: b := by
  induction fns with
  | nil => cases h
  | cons x rest ih =>
    rcases List.mem_cons.mp h with h1 | h2
    · subst h1
      exact ⟨[], sudo_chattr (rd ++ [fn]) o m ++ fileOps ld rd o m rest,
        by simp [fileOps, sudo_upload_file]⟩
    · obtain ⟨a, b, hab⟩ := ih h2
      exact ⟨sudo_upload_file (ld ++ [x]) (rd ++ [x]) o m ++ a, b,
        by simp [fileOps, hab, List.append_assoc]⟩

/-- Claim C8: in the trace of `sudo_upload_dir`, for every walk entry the
`mkdir -p` of its computed remote directory strictly precedes the upload of
each file directly inside it, and for any two walk entries in walk order (in
`os.walk`'s depth-first pre-order a parent directory is always yielded before
its subdirectories) the first entry's directory creation strictly precedes
the second's. -/
theorem C8_sudo_upload_dir_order (walkRes : List WalkEntry)
    (local_dir remote_dir : List String) (owner mode : Option String) :
    (∀ w1 e w2, walkRes = w1 ++ e :: w2 → ∀ fn ∈ e.filenames,
        precedes (Cmd.mkdirp (remoteDirFor local_dir remote_dir e.dirpath))
          (Cmd.put (e.dirpath ++ [fn])
            (remoteDirFor local_dir remote_dir e.dirpath ++ [fn]))
          (sudo_upload_dir walkRes local_dir remote_dir owner mode))
      ∧ (∀ w1 e1 w2 e2 w3, walkRes = w1 ++ e1 :: w2 ++ e2 :: w3 →
          precedes (Cmd.mkdirp (remoteDirFor local_dir remote_dir e1.dirpath))
            (Cmd.mkdirp (remoteDirFor local_dir remote_dir e2.dirpath))
            (sudo_upload_dir walkRes local_dir remote_dir owner mode)) := by
  constructor
  · intro w1 e w2 hw fn hfn
    subst hw
    obtain ⟨a, b, hab⟩ := fileOps_split e.dirpath
      (remoteDirFor local_dir remote_dir e.dirpath) owner mode e.filenames fn hfn
    refine ⟨sudo_upload_dir w1 local_dir remote_dir owner mode,
      sudo_chattr (remoteDirFor local_dir remote_dir e.dirpath) owner mode ++ a,
      b ++ sudo_upload_dir w2 local_dir remote_dir owner mode, ?_⟩
    rw [sudo_upload_dir_append]
    simp only [sudo_upload_dir, entryOps, sudo_mkdir_p, hab]
    simp [List.append_assoc]
  · intro w1 e1 w2 e2 w3 hw
    subst hw
    refine ⟨sudo_upload_dir w1 local_dir remote_dir owner mode,
      (sudo_chattr (remoteDirFor local_dir remote_dir e1.dirpath) owner mode
          ++ fileOps e1.dirpath (remoteDirFor local_dir remote_dir e1.dirpath)
              owner mode e1.filenames)
        ++ sudo_upload_dir w2 local_dir remote_dir owner mode,
      (sudo_chattr (remoteDirFor local_dir remote_dir e2.dirpath) owner mode
          ++ fileOps e2.dirpath (remoteDirFor local_dir remote_dir e2.dirpath)
              owner mode e2.filenames)
        ++ sudo_upload_dir w3 local_dir remote_dir owner mode, ?_⟩
    have hsplit : (w1 ++ e1 :: w2 ++ e2 :: w3 : List WalkEntry)
        = w1 ++ (e1 :: w2) ++ (e2 :: w3) := by
      simp [List.append_assoc]
    rw [hsplit, sudo_upload_dir_append, sudo_upload_dir_append]
    simp only [sudo_upload_dir, entryOps, sudo_mkdir_p]
    simp [List.append_assoc]

/-- Claim C8 witness: for the tree `root/{a.txt, sub/b.txt}` uploaded to
`rem`, the creation of `rem` precedes the upload of `a.txt`, and the creation
of `rem` precedes the creation of `rem/sub`. -/
theorem C8_witness :
    precedes (Cmd.mkdirp (remoteDirFor ["root"] ["rem"] ["root"]))
        (Cmd.put (["root"] ++ ["a.txt"])
          (remoteDirFor ["root"] ["rem"] ["root"] ++ ["a.txt"]))
        (sudo_upload_dir
          [⟨["root"], ["sub"], ["a.txt"]⟩, ⟨["root", "sub"], [], ["b.txt"]⟩]
          ["root"] ["rem"] Option.none Option.none)
      ∧ precedes (Cmd.mkdirp (remoteDirFor ["root"] ["rem"] ["root"]))
          (Cmd.mkdirp (remoteDirFor ["root"] ["rem"] ["root", "sub"]))
          (sudo_upload_dir
            [⟨["root"], ["sub"], ["a.txt"]⟩, ⟨["root", "sub"], [], ["b.txt"]⟩]
            ["root"] ["rem"] Option.none Option.none) :=
  let h := C8_sudo_upload_dir_order
    [⟨["root"], ["sub"], ["a.txt"]⟩, ⟨["root", "sub"], [], ["b.txt"]⟩]
    ["root"] ["rem"] Option.none Option.none
  ⟨h.1 [] ⟨["root"], ["sub"], ["a.txt"]⟩ [⟨["root", "sub"], [], ["b.txt"]⟩]
      rfl "a.txt" (by decide),
    h.2 [] ⟨["root"], ["sub"], ["a.txt"]⟩ [] ⟨["root", "sub"], [], ["b.txt"]⟩ []
      rfl⟩

end AwsFab
